import Mathlib

/-!
Verification development for the FC26 player-clustering service
(`api.py`, `train_model.py`).

The Python source is shallowly embedded: attribute records become
association lists from column names to rational values, pandas data
frames become a column list plus a list of rows, and the numpy
pipeline (style-dimension reduction, standard scaling, K-means
prediction, similarity ranking) becomes pure functions over `ℚ`
(with `ℝ` only where a square root is mathematically unavoidable).
Floating point rounding is not modelled; all arithmetic is exact.
-/

/-- The arithmetic mean of a list of rationals (`np.mean` / pandas
`mean(axis=1)` on fully populated cells). Empty list yields `0`
(never hit by the call sites, whose lists are non-empty). -/
def listMean (l : List ℚ) : ℚ := l.sum / (l.length : ℚ)

/-- One data-frame row / one attribute record: string-valued cells
(name columns) and numeric cells (skill attributes) as association
lists keyed by column name. `row.to_dict()` in the source. -/
structure Record where
  strs : List (String × String)
  nums : List (String × ℚ)
deriving DecidableEq, Inhabited

/-- A pandas `DataFrame`: the column index plus the rows. -/
structure Table where
  cols : List String
  rows : List Record
deriving DecidableEq, Inhabited

/-- `api.create_style_dimensions`'s `style_dims` dict: the candidate
attribute lists of the single-record reducer (canonical names only),
in the fixed dimension order pace, dribbling, creativity, finishing,
defense, physicality. -/
def styleDimsSingle : List (String × List String) :=
  [("pace", ["movement_acceleration", "movement_sprint_speed"]),
   ("dribbling", ["skill_dribbling", "skill_ball_control",
                  "movement_agility", "movement_balance"]),
   ("creativity", ["attacking_short_passing", "skill_long_passing",
                   "mentality_vision", "skill_curve"]),
   ("finishing", ["attacking_finishing", "power_shot_power",
                  "mentality_positioning"]),
   ("defense", ["mentality_interceptions", "defending_standing_tackle",
                "defending_sliding_tackle", "mentality_aggression"]),
   ("physicality", ["power_strength", "power_stamina", "power_jumping"])]

/-- `api.create_style_dimensions_batch`'s `style_dims` dict: the
batch reducer's candidate lists, which extend the single-record lists
with short alias column names (`acceleration`, `dribbling`, ...). -/
def styleDimsBatch : List (String × List String) :=
  [("pace", ["movement_acceleration", "movement_sprint_speed",
             "acceleration", "sprint_speed"]),
   ("dribbling", ["skill_dribbling", "skill_ball_control",
                  "movement_agility", "movement_balance",
                  "dribbling", "ball_control", "agility", "balance"]),
   ("creativity", ["attacking_short_passing", "skill_long_passing",
                   "mentality_vision", "skill_curve",
                   "short_passing", "long_passing", "vision", "curve"]),
   ("finishing", ["attacking_finishing", "power_shot_power",
                  "mentality_positioning",
                  "finishing", "shot_power", "positioning"]),
   ("defense", ["mentality_interceptions", "defending_standing_tackle",
                "defending_sliding_tackle", "mentality_aggression",
                "interceptions", "standing_tackle", "sliding_tackle",
                "aggression"]),
   ("physicality", ["power_strength", "power_stamina", "power_jumping",
                    "strength", "stamina", "jumping"])]

/-- `api.create_style_dimensions(attributes)`: for each dimension,
`values = [attributes.get(attr, 50) for attr in attrs]` followed by
`np.mean(values)` — a missing attribute enters the mean as the
default `50`, it is not skipped. -/
def create_style_dimensions (attributes : List (String × ℚ)) : List ℚ :=
  styleDimsSingle.map
    (fun p => listMean (p.2.map (fun a => (List.lookup a attributes).getD 50)))

/-- Per-dimension value of `api.create_style_dimensions_batch` at one
row: `available_attrs = [col for col in attrs if col in df.columns]`,
then the row-wise mean over those columns, or the constant `50` when
no candidate column exists (`np.full(len(df), 50)`). -/
def batchDimVal (T : Table) (attrs : List String) (r : Record) : ℚ :=
  let available := attrs.filter (fun c => decide (c ∈ T.cols))
  if available.isEmpty then 50
  else listMean (available.map (fun c => (List.lookup c r.nums).getD 0))

/-- `api.create_style_dimensions_batch(df)` in row-major form: row
`r` of the returned `N×6` matrix (`np.array(feature_matrix).T`). -/
def create_style_dimensions_batch (T : Table) : List (List ℚ) :=
  T.rows.map (fun r => styleDimsBatch.map (fun p => batchDimVal T p.2 r))

/-- `True` iff `needle` is an initial segment of `hay` (character
lists). -/
def leadsWith : List Char → List Char → Bool
  | [], _ => true
  | _ :: _, [] => false
  | a :: as, b :: bs => a == b && leadsWith as bs

/-- `True` iff `needle` occurs contiguously inside `hay`. -/
def hasSub (needle : List Char) : List Char → Bool
  | [] => needle.isEmpty
  | c :: rest => leadsWith needle (c :: rest) || hasSub needle rest

/-- Case-insensitive substring test: pandas
`Series.str.contains(pattern, case=False)` for a literal pattern
(the queries modelled here contain no regex metacharacters). -/
def containsCI (hay pat : String) : Bool :=
  hasSub (pat.data.map Char.toLower) (hay.data.map Char.toLower)

/-- One row's contribution to the pandas boolean mask
`df[col].str.contains(query, case=False, na=False)`: a missing/NaN
cell counts as no match (`na=False`). -/
def rowMatches (r : Record) (col query : String) : Bool :=
  match List.lookup col r.strs with
  | some s => containsCI s query
  | none => false

/-- `api.find_similar_players`'s `name_columns` priority list. -/
def nameColumns : List String := ["short_name", "name", "long_name", "player_name"]

/-- One iteration test of the name-column loop: the column exists in
the frame (`if name_col in player_data.columns`) and its mask has at
least one hit (`if player_mask.any()`). -/
def colPresentMatch (T : Table) (query col : String) : Bool :=
  decide (col ∈ T.cols) && T.rows.any (fun r => rowMatches r col query)

/-- The `for name_col in name_columns: ... break` loop of
`api.find_similar_players` (and `get_player_profile`). -/
def findNameColAux (T : Table) (query : String) : List String → Option String
  | [] => none
  | c :: cs => if colPresentMatch T query c then some c else findNameColAux T query cs

/-- Result of the name-column loop: the column whose mask was kept,
`name_col_used`, or `none` when every recognized column either is
absent or matches no row (the 404 branch). -/
def findNameCol (T : Table) (query : String) : Option String :=
  findNameColAux T query nameColumns

/-- `player_data[player_mask].iloc[0]`: index of the first row whose
chosen name column matches the query. -/
def matchedRowIdx (T : Table) (col query : String) : ℕ :=
  T.rows.findIdx (fun r => rowMatches r col query)

/-- Fitted `StandardScaler` state as persisted in `scaler.pkl`:
per-column centers (`mean_`) and squared scales (`scale_**2`,
rational, so that scaled squared distances stay rational). -/
structure ScalerState where
  means : List ℚ
  scaleSq : List ℚ
deriving DecidableEq, Inhabited

/-- One component of `scaler.transform`:
`(x - mean_[j]) / scale_[j]` with `scale_[j] = sqrt(scaleSq[j])`. -/
noncomputable def transformElem (st : ScalerState) (j : ℕ) (x : ℚ) : ℝ :=
  ((x : ℝ) - ((st.means.getD j 0 : ℚ) : ℝ)) / Real.sqrt ((st.scaleSq.getD j 1 : ℚ) : ℝ)

/-- `scaler.transform` of a raw 6-vector. -/
noncomputable def transformVec (st : ScalerState) (x : List ℚ) : List ℝ :=
  (List.range 6).map (fun j => transformElem st j (x.getD j 0))

/-- Squared Euclidean distance between two real 6-vectors. -/
def euclDistSq (x y : List ℝ) : ℝ :=
  ((List.range 6).map (fun j => (x.getD j 0 - y.getD j 0) ^ 2)).sum

/-- Euclidean (L2) distance between two real 6-vectors, as in
`np.linalg.norm(all_scaled - player_scaled, axis=1)`. -/
noncomputable def euclDist (x y : List ℝ) : ℝ := Real.sqrt (euclDistSq x y)

/-- Squared distance between the *scaled* images of two raw
6-vectors, computed rationally: the per-column means cancel, so
`‖transform x - transform y‖² = Σⱼ (xⱼ-yⱼ)²/scaleSqⱼ`. -/
def scaledDistSq (st : ScalerState) (x y : List ℚ) : ℚ :=
  ((List.range 6).map
    (fun j => (x.getD j 0 - y.getD j 0) ^ 2 / st.scaleSq.getD j 1)).sum

/-- Stable insertion step for sorting row indices by a rational key. -/
def insKey (key : ℕ → ℚ) (a : ℕ) : List ℕ → List ℕ
  | [] => [a]
  | b :: l => if key a ≤ key b then a :: b :: l else b :: insKey key a l

/-- Stable sort of row indices by ascending key: `np.argsort` on the
distance vector (equal keys keep ascending row order, the behaviour
of a stable argsort; the distances compared by numpy are the square
roots of these keys, which orders identically). -/
def sortByKey (key : ℕ → ℚ) : List ℕ → List ℕ
  | [] => []
  | a :: l => insKey key a (sortByKey key l)

/-- Distance key of candidate row `i` for a query feature vector:
squared scaled distance from row `i`'s batch-reduced features. -/
def simKey (st : ScalerState) (T : Table) (qFeat : List ℚ) (i : ℕ) : ℚ :=
  scaledDistSq st ((create_style_dimensions_batch T).getD i []) qFeat

/-- Errors surfaced by the API layer: HTTP 404, pydantic's 422
request validation, and the catch-all 500. -/
inductive ApiError
  | notFound
  | validation
  | internal
deriving DecidableEq

/-- Index-level core of `api.find_similar_players`: resolve the name
column, take the first matching row as the query player, reduce the
query row with the single-record reducer and all rows with the batch
reducer, rank every row by scaled distance, and keep
`argsort(distances)[1 : top_n + 1]`. -/
def find_similar_idxs (st : ScalerState) (T : Table) (query : String) (top_n : ℕ) :
    Except ApiError (List ℕ) :=
  match findNameCol T query with
  | none => .error .notFound
  | some c =>
    let m := matchedRowIdx T c query
    let qFeat := create_style_dimensions (T.rows.getD m default).nums
    let sorted := sortByKey (simKey st T qFeat) (List.range T.rows.length)
    .ok ((sorted.drop 1).take top_n)

/-- `api.find_similar_players`: the ranked row indices rendered as
names from the matched name column
(`player_data.iloc[similar_indices][name_col_used].tolist()`). -/
def find_similar_players (st : ScalerState) (T : Table) (query : String) (top_n : ℕ) :
    Except ApiError (List String) :=
  match findNameCol T query with
  | none => .error .notFound
  | some c =>
    (find_similar_idxs st T query top_n).map
      (fun l => l.map (fun i => (List.lookup c (T.rows.getD i default).strs).getD ""))

/-- `api.SimilarPlayerRequest`: `player_name` with `min_length=1` and
`top_n` with `ge=1, le=20` (an unconstrained JSON integer before
validation, hence `ℤ`). -/
structure SimilarPlayerRequest where
  player_name : String
  top_n : ℤ
deriving DecidableEq

/-- Pydantic validation of `SimilarPlayerRequest`: all `Field`
constraints must hold or the request is rejected with HTTP 422
before the endpoint body runs. -/
def validSimilarRequest (r : SimilarPlayerRequest) : Bool :=
  decide (1 ≤ r.player_name.length) && decide (1 ≤ r.top_n) && decide (r.top_n ≤ 20)

/-- The `/similar_players` endpoint: pydantic validation followed by
`find_similar_players`. -/
def similar_players_endpoint (st : ScalerState) (T : Table) (r : SimilarPlayerRequest) :
    Except ApiError (List String) :=
  if validSimilarRequest r then
    find_similar_players st T r.player_name r.top_n.toNat
  else .error .validation

/-- Number of feature columns of a training matrix (row-major list
of rows; the pipeline always passes `N×6`). -/
def numCols (M : List (List ℚ)) : ℕ := (M.headD []).length

/-- Mean of column `j` of a training matrix. -/
def colMean (M : List (List ℚ)) (j : ℕ) : ℚ :=
  (M.map (fun r => r.getD j 0)).sum / (M.length : ℚ)

/-- Population variance (`ddof=0`) of column `j` of a training
matrix — the square of `StandardScaler`'s per-column `scale_` before
zero handling. -/
def colVar (M : List (List ℚ)) (j : ℕ) : ℚ :=
  (M.map (fun r => (r.getD j 0 - colMean M j) ^ 2)).sum / (M.length : ℚ)

/-- Modelled from the spec: `StandardScaler.fit` is sklearn library
code absent from `src/`; per §4.2 the fitted state is the per-column
mean and standard deviation over the full training matrix, with a
zero-variance column's scale replaced by 1 so `transform` never
divides by zero (sklearn's `_handle_zeros_in_scale`). Stored here as
mean and squared scale. -/
def fitScaler (M : List (List ℚ)) : ScalerState :=
  { means := (List.range (numCols M)).map (colMean M),
    scaleSq := (List.range (numCols M)).map
      (fun j => if colVar M j = 0 then 1 else colVar M j) }

/-- Mean of transformed column `j` of `transform(fit(M), M)`. -/
noncomputable def tColMean (M : List (List ℚ)) (j : ℕ) : ℝ :=
  (M.map (fun r => transformElem (fitScaler M) j (r.getD j 0))).sum / (M.length : ℝ)

/-- Population variance of transformed column `j` of
`transform(fit(M), M)`. -/
noncomputable def tColVar (M : List (List ℚ)) (j : ℕ) : ℝ :=
  (M.map (fun r => (transformElem (fitScaler M) j (r.getD j 0) - tColMean M j) ^ 2)).sum
    / (M.length : ℝ)

/-- The persisted K-means model (`kmeans.pkl`): its cluster centers
in standardized style-dimension space. -/
structure KMeansModel where
  centroids : List (List ℚ)
deriving DecidableEq, Inhabited

/-- Squared Euclidean distance between two rational 6-vectors. -/
def sqDist6 (x y : List ℚ) : ℚ :=
  ((List.range 6).map (fun j => (x.getD j 0 - y.getD j 0) ^ 2)).sum

/-- First-occurrence argmin fold: the running best index is replaced
only on a strictly smaller key. -/
def argminLoop (key : ℕ → ℚ) : ℕ → List ℕ → ℕ
  | best, [] => best
  | best, i :: is => argminLoop key (if key i < key best then i else best) is

/-- Modelled from the spec: `KMeans.predict` is sklearn library code
absent from `src/`; per §4.3 it assigns a standardized vector to the
index of its nearest centroid under Euclidean distance, breaking
exact ties by the lowest index (the first-occurrence argmin of the
distance array). -/
def kmeans_predict (m : KMeansModel) (x : List ℚ) : ℕ :=
  argminLoop (fun i => sqDist6 (m.centroids.getD i []) x) 0
    ((List.range m.centroids.length).drop 1)

/-- The label map `cluster_labels.json`: JSON object keys are
cluster-index strings, values are style names. -/
def LabelMap : Type := List (ℕ × String)

/-- The artifact files `api.load_models` reads at startup; `none`
means the file is missing on disk. -/
structure ArtifactStore where
  scalerFile : Option ScalerState
  kmeansFile : Option KMeansModel
  labelsFile : Option (List (ℕ × String))
  playerFile : Option Table

/-- The module-level globals of `api.py` after a successful startup. -/
structure LoadedBundle where
  scaler : ScalerState
  kmeans : KMeansModel
  cluster_labels : List (ℕ × String)
  player_data : Table

/-- Startup failure: `FileNotFoundError` (re-raised) or any other
load exception (also re-raised). -/
inductive LoadError
  | fileNotFound (path : String)
  | other
deriving DecidableEq

/-- `api.load_models`: load the four artifacts in order and re-raise
`FileNotFoundError` for a missing file. No validation beyond file
presence is performed — in particular no comparison of the label
map's entry count against the model's centroid count. -/
def load_models (store : ArtifactStore) : Except LoadError LoadedBundle :=
  match store.scalerFile with
  | none => .error (.fileNotFound "models/scaler.pkl")
  | some sc =>
    match store.kmeansFile with
    | none => .error (.fileNotFound "models/kmeans.pkl")
    | some km =>
      match store.labelsFile with
      | none => .error (.fileNotFound "models/cluster_labels.json")
      | some lb =>
        match store.playerFile with
        | none => .error (.fileNotFound "FC26.csv")
        | some pd => .ok ⟨sc, km, lb, pd⟩

/-- The candidate values actually present in a record, in candidate
order (used to state what the spec's "average over the candidate
attributes present" would compute). -/
def presentVals (attributes : List (String × ℚ)) (l : List String) : List ℚ :=
  l.filterMap (fun a => List.lookup a attributes)

/-- How many of a dimension's candidate attributes are absent from a
record. -/
def absentCount (attributes : List (String × ℚ)) (l : List String) : ℕ :=
  (l.filter (fun a => (List.lookup a attributes).isNone)).length

/-- The 20 canonical attribute names: the single-record reducer's
candidate lists, flattened. -/
def canonicalAttrs : List String :=
  ["movement_acceleration", "movement_sprint_speed",
   "skill_dribbling", "skill_ball_control", "movement_agility", "movement_balance",
   "attacking_short_passing", "skill_long_passing", "mentality_vision", "skill_curve",
   "attacking_finishing", "power_shot_power", "mentality_positioning",
   "mentality_interceptions", "defending_standing_tackle",
   "defending_sliding_tackle", "mentality_aggression",
   "power_strength", "power_stamina", "power_jumping"]

/-- The alias attribute names recognized only by the batch reducer. -/
def aliasAttrs : List String :=
  ["acceleration", "sprint_speed",
   "dribbling", "ball_control", "agility", "balance",
   "short_passing", "long_passing", "vision", "curve",
   "finishing", "shot_power", "positioning",
   "interceptions", "standing_tackle", "sliding_tackle", "aggression",
   "strength", "stamina", "jumping"]

/-- Identity-like scaler: centers 0, scales 1 (squared scales 1). -/
def stId : ScalerState := ⟨[0, 0, 0, 0, 0, 0], [1, 1, 1, 1, 1, 1]⟩

/-- The §8 scenario record: `skill_dribbling=90, skill_ball_control=85,
movement_agility=80, movement_balance=75`, nothing else. -/
def recC9 : List (String × ℚ) :=
  [("skill_dribbling", 90), ("skill_ball_control", 85),
   ("movement_agility", 80), ("movement_balance", 75)]

/-- Two attribute-duplicate players (no attribute columns at all, so
both reduce to the all-50 vector): `Alice` at row 0, `Bob` at row 1. -/
def tblDup : Table :=
  { cols := ["name"],
    rows := [⟨[("name", "Alice")], []⟩, ⟨[("name", "Bob")], []⟩] }

/-- Two players distinguished by one attribute column: `Alice` with
acceleration 0, `Bob` with acceleration 100. -/
def tblTwo : Table :=
  { cols := ["name", "movement_acceleration"],
    rows := [⟨[("name", "Alice")], [("movement_acceleration", 0)]⟩,
             ⟨[("name", "Bob")], [("movement_acceleration", 100)]⟩] }

/-- A frame whose `short_name` column never matches the query
`"xavier"` but whose `long_name` column does: the fall-through
scenario of §8. -/
def tblLong : Table :=
  { cols := ["short_name", "long_name"],
    rows := [⟨[("short_name", "Al"), ("long_name", "Xavier Alonso")], []⟩,
             ⟨[("short_name", "Bo"), ("long_name", "Xavier Bo")], []⟩] }

/-- A one-row frame carrying only the alias column `acceleration`,
which the batch reducer recognizes and the single-record reducer
does not. -/
def tblAlias : Table :=
  { cols := ["acceleration"],
    rows := [⟨[], [("acceleration", 100)]⟩] }

/-- The canonical-schema row used to witness batch/single agreement:
every canonical attribute column present, no alias columns. -/
def recFull : Record :=
  ⟨[("short_name", "Cara")], canonicalAttrs.map (fun a => (a, 60))⟩

/-- A frame over exactly the canonical attribute schema plus a name
column. -/
def tblFull : Table :=
  { cols := "short_name" :: canonicalAttrs,
    rows := [recFull] }

/-- An artifact store whose label map has 5 entries while the model
has 6 centroids — the §8 inconsistency scenario, with every file
present. -/
def storeMismatch : ArtifactStore :=
  { scalerFile := some stId,
    kmeansFile := some ⟨[[0, 0, 0, 0, 0, 0], [1, 0, 0, 0, 0, 0],
                         [2, 0, 0, 0, 0, 0], [3, 0, 0, 0, 0, 0],
                         [4, 0, 0, 0, 0, 0], [5, 0, 0, 0, 0, 0]]⟩,
    labelsFile := some [(0, "Creative Playmaker"), (1, "Ball Winning Midfielder"),
                        (2, "Explosive Winger"), (3, "Target Man"),
                        (4, "Defensive Center Back")],
    playerFile := some tblDup }

/-- A 2×2 training matrix whose first column has zero variance. -/
def matC7 : List (List ℚ) := [[1, 2], [1, 4]]

/-- A two-centroid model for exercising `kmeans_predict`. -/
def mdlTwo : KMeansModel := ⟨[[0, 0, 0, 0, 0, 0], [1, 0, 0, 0, 0, 0]]⟩

lemma sum_getD_lookup (attributes : List (String × ℚ)) (l : List String) :
    (l.map (fun a => (List.lookup a attributes).getD 50)).sum
      = (presentVals attributes l).sum + 50 * (absentCount attributes l : ℚ) := by
  induction l with
  | nil => simp [presentVals, absentCount]
  | cons a l ih =>
    cases h : List.lookup a attributes with
    | none =>
      simp only [List.map_cons, List.sum_cons, presentVals, absentCount,
        List.filterMap_cons, List.filter_cons, h, Option.getD_none, Option.isNone_none,
        if_true, List.length_cons] at ih ⊢
      rw [ih]
      push_cast
      ring
    | some v =>
      simp only [List.map_cons, List.sum_cons, presentVals, absentCount,
        List.filterMap_cons, List.filter_cons, h, Option.getD_some, Option.isNone_some,
        List.sum_cons, Bool.false_eq_true, if_false] at ih ⊢
      rw [ih]
      ring

lemma absentCount_of_presentNil {attributes : List (String × ℚ)} {l : List String}
    (h : presentVals attributes l = []) : absentCount attributes l = l.length := by
  induction l with
  | nil => simp [absentCount]
  | cons a l ih =>
    cases hl : List.lookup a attributes with
    | none =>
      have h' : presentVals attributes l = [] := by
        simpa [presentVals, List.filterMap_cons, hl] using h
      have hc := ih h'
      simp only [absentCount] at hc ⊢
      simp [List.filter_cons, hl, hc]
    | some v =>
      exfalso
      simp [presentVals, List.filterMap_cons, hl] at h

/-- C9: on the record with exactly `skill_dribbling=90`,
`skill_ball_control=85`, `movement_agility=80`, `movement_balance=75`,
the single-record reducer yields dribbling `= 82.5` (the mean of the
four values) and exactly `50` in each of the other five dimensions. -/
theorem c9_dribbling_scenario :
    create_style_dimensions recC9 = [50, 82.5, 50, 50, 50, 50] := by
  simp [create_style_dimensions, recC9, styleDimsSingle, listMean, List.lookup]
  norm_num

/-- C2 counterexample: on a record containing only
`movement_acceleration=100`, the arithmetic mean over the present
candidates of the pace dimension would be `100`, but
`create_style_dimensions` yields `75`: the absent
`movement_sprint_speed` is not skipped, it enters the mean as the
default `50` (`attributes.get(attr, 50)`). -/
theorem c2_counterexample :
    create_style_dimensions [("movement_acceleration", 100)] = [75, 50, 50, 50, 50, 50]
      ∧ (75 : ℚ) ≠ 100 := by
  constructor
  · simp [create_style_dimensions, styleDimsSingle, listMean, List.lookup]
    norm_num
  · norm_num

/-- C2 amended: for every record and every dimension, the dimension's
value is the arithmetic mean over the dimension's *full* candidate
list in which each absent candidate contributes the default `50`
(present ones contribute their value); consequently, when none of a
dimension's candidates are present the value is exactly `50`. -/
theorem c2_single_reducer_amended (attributes : List (String × ℚ)) :
    create_style_dimensions attributes
      = styleDimsSingle.map (fun p =>
          ((presentVals attributes p.2).sum + 50 * (absentCount attributes p.2 : ℚ))
            / (p.2.length : ℚ))
    ∧ ∀ p ∈ styleDimsSingle, presentVals attributes p.2 = [] →
        ((presentVals attributes p.2).sum + 50 * (absentCount attributes p.2 : ℚ))
          / (p.2.length : ℚ) = 50 := by
  constructor
  · unfold create_style_dimensions
    refine List.map_congr_left (fun p _ => ?_)
    rw [listMean, sum_getD_lookup, List.length_map]
  · intro p hp hnil
    rw [hnil, absentCount_of_presentNil hnil]
    fin_cases hp <;> norm_num

/-- C2 witness: the pace candidates are all absent from the record
`{power_strength: 80}`, and the amended formula indeed gives `50`. -/
theorem c2_witness :
    ("pace", ["movement_acceleration", "movement_sprint_speed"]) ∈ styleDimsSingle
      ∧ presentVals [("power_strength", (80 : ℚ))]
          ["movement_acceleration", "movement_sprint_speed"] = []
      ∧ ((presentVals [("power_strength", (80 : ℚ))]
            ["movement_acceleration", "movement_sprint_speed"]).sum
          + 50 * (absentCount [("power_strength", (80 : ℚ))]
              ["movement_acceleration", "movement_sprint_speed"] : ℚ))
          / ((["movement_acceleration", "movement_sprint_speed"] : List String).length : ℚ)
          = 50 :=
  ⟨by decide, by rfl,
    (c2_single_reducer_amended [("power_strength", (80 : ℚ))]).2
      ("pace", ["movement_acceleration", "movement_sprint_speed"]) (by decide) (by rfl)⟩

lemma batchDimVal_canonical (T : Table) (r : Record) (cs sa : List String)
    (hne : cs ≠ [])
    (hc : ∀ a ∈ cs, a ∈ T.cols) (ha : ∀ a ∈ sa, a ∉ T.cols)
    (hv : ∀ a ∈ cs, (List.lookup a r.nums).isSome) :
    batchDimVal T (cs ++ sa) r
      = listMean (cs.map (fun a => (List.lookup a r.nums).getD 50)) := by
  have hfil : (cs ++ sa).filter (fun c => decide (c ∈ T.cols)) = cs := by
    rw [List.filter_append,
      List.filter_eq_self.mpr (fun a hax => decide_eq_true (hc a hax))]
    have h2 : sa.filter (fun c => decide (c ∈ T.cols)) = [] := by
      rw [List.filter_eq_nil_iff]
      intro a hax
      simpa using ha a hax
    rw [h2, List.append_nil]
  have hie : cs.isEmpty = false := by
    cases cs with
    | nil => exact absurd rfl hne
    | cons a l => rfl
  have hmap : cs.map (fun c => (List.lookup c r.nums).getD 0)
      = cs.map (fun a => (List.lookup a r.nums).getD 50) := by
    refine List.map_congr_left (fun a hax => ?_)
    obtain ⟨v, hv'⟩ := Option.isSome_iff_exists.mp (hv a hax)
    simp [hv']
  simp only [batchDimVal, hfil, hie, Bool.false_eq_true, if_false]
  rw [hmap]

/-- C1 counterexample: on the one-row frame whose only column is the
alias `acceleration=100`, the batch reducer puts pace `= 100` while
the single-record reducer on the same row yields pace `= 50` (its
candidate list knows only the canonical names), so batch and
single-record reduction do not agree on this row. -/
theorem c1_counterexample :
    (create_style_dimensions_batch tblAlias).getD 0 [] = [100, 50, 50, 50, 50, 50]
      ∧ create_style_dimensions (tblAlias.rows.getD 0 default).nums
          = [50, 50, 50, 50, 50, 50]
      ∧ (create_style_dimensions_batch tblAlias).getD 0 []
          ≠ create_style_dimensions (tblAlias.rows.getD 0 default).nums := by
  refine ⟨?_, ?_, ?_⟩
  · simp [create_style_dimensions_batch, tblAlias, batchDimVal, styleDimsBatch,
      listMean, List.lookup, List.filter] <;> norm_num
  · simp [create_style_dimensions, tblAlias, styleDimsSingle, listMean, List.lookup]
      <;> norm_num
  · simp [create_style_dimensions_batch, create_style_dimensions, tblAlias,
      batchDimVal, styleDimsBatch, styleDimsSingle, listMean, List.lookup, List.filter]
      <;> norm_num

/-- C1 amended: batch and single-record reduction agree at a row
provided the frame's schema is the canonical one — every canonical
candidate attribute is a column whose value is present in the row,
and none of the batch-only alias column names occur. On frames
carrying alias columns (or rows missing canonical attributes) the
two reducers differ, as `c1_counterexample` shows. -/
theorem c1_batch_single_agree_amended (T : Table) (m : ℕ) (hm : m < T.rows.length)
    (hcanon : ∀ a ∈ canonicalAttrs, a ∈ T.cols)
    (halias : ∀ a ∈ aliasAttrs, a ∉ T.cols)
    (hvals : ∀ a ∈ canonicalAttrs, (List.lookup a (T.rows.getD m default).nums).isSome) :
    (create_style_dimensions_batch T).getD m []
      = create_style_dimensions (T.rows.getD m default).nums := by
  have hr : T.rows.getD m default = T.rows[m] := List.getD_eq_getElem _ _ hm
  have hb : (create_style_dimensions_batch T).getD m []
      = styleDimsBatch.map (fun p => batchDimVal T p.2 T.rows[m]) := by
    rw [create_style_dimensions_batch, List.getD_eq_getElem _ _ (by simpa using hm),
      List.getElem_map]
  rw [hr] at hvals
  rw [hb, hr, create_style_dimensions]
  simp only [styleDimsBatch, styleDimsSingle, List.map_cons, List.map_nil,
    List.cons.injEq, and_true]
  refine ⟨?_, ?_, ?_, ?_, ?_, ?_⟩
  · exact batchDimVal_canonical T _ ["movement_acceleration", "movement_sprint_speed"]
      ["acceleration", "sprint_speed"] (by simp)
      (fun a hax => hcanon a (by fin_cases hax <;> decide))
      (fun a hax => halias a (by fin_cases hax <;> decide))
      (fun a hax => hvals a (by fin_cases hax <;> decide))
  · exact batchDimVal_canonical T _
      ["skill_dribbling", "skill_ball_control", "movement_agility", "movement_balance"]
      ["dribbling", "ball_control", "agility", "balance"] (by simp)
      (fun a hax => hcanon a (by fin_cases hax <;> decide))
      (fun a hax => halias a (by fin_cases hax <;> decide))
      (fun a hax => hvals a (by fin_cases hax <;> decide))
  · exact batchDimVal_canonical T _
      ["attacking_short_passing", "skill_long_passing", "mentality_vision", "skill_curve"]
      ["short_passing", "long_passing", "vision", "curve"] (by simp)
      (fun a hax => hcanon a (by fin_cases hax <;> decide))
      (fun a hax => halias a (by fin_cases hax <;> decide))
      (fun a hax => hvals a (by fin_cases hax <;> decide))
  · exact batchDimVal_canonical T _
      ["attacking_finishing", "power_shot_power", "mentality_positioning"]
      ["finishing", "shot_power", "positioning"] (by simp)
      (fun a hax => hcanon a (by fin_cases hax <;> decide))
      (fun a hax => halias a (by fin_cases hax <;> decide))
      (fun a hax => hvals a (by fin_cases hax <;> decide))
  · exact batchDimVal_canonical T _
      ["mentality_interceptions", "defending_standing_tackle",
       "defending_sliding_tackle", "mentality_aggression"]
      ["interceptions", "standing_tackle", "sliding_tackle", "aggression"] (by simp)
      (fun a hax => hcanon a (by fin_cases hax <;> decide))
      (fun a hax => halias a (by fin_cases hax <;> decide))
      (fun a hax => hvals a (by fin_cases hax <;> decide))
  · exact batchDimVal_canonical T _
      ["power_strength", "power_stamina", "power_jumping"]
      ["strength", "stamina", "jumping"] (by simp)
      (fun a hax => hcanon a (by fin_cases hax <;> decide))
      (fun a hax => halias a (by fin_cases hax <;> decide))
      (fun a hax => hvals a (by fin_cases hax <;> decide))

/-- C1 witness: on the canonical-schema one-row frame `tblFull`, the
amended agreement holds. -/
theorem c1_witness :
    0 < tblFull.rows.length
      ∧ (create_style_dimensions_batch tblFull).getD 0 []
          = create_style_dimensions (tblFull.rows.getD 0 default).nums :=
  ⟨by decide,
    c1_batch_single_agree_amended tblFull 0 (by decide) (by decide) (by decide) (by decide)⟩

/-- C3 counterexample: the §8 scenario store — a 5-entry label map
beside a 6-centroid model, all files present — loads successfully:
`load_models` raises no `InconsistentModelError` (no such check, or
error kind, exists) and the server proceeds to serve. -/
theorem c3_counterexample :
    (load_models storeMismatch).isOk = true
      ∧ storeMismatch.labelsFile.map List.length = some 5
      ∧ storeMismatch.kmeansFile.map (fun m => m.centroids.length) = some 6 :=
  ⟨rfl, rfl, rfl⟩

/-- C3 amended: artifact loading performs no label-map/centroid
cardinality check — whenever all four artifact files are present,
`load_models` succeeds regardless of how many entries the label map
has versus centroids in the model; a mismatch surfaces only later,
per request, when a prediction's cluster index is missing from the
map (the endpoint's generic 500 handler), never at load time. -/
theorem c3_load_no_cardinality_check (store : ArtifactStore)
    (h1 : store.scalerFile.isSome) (h2 : store.kmeansFile.isSome)
    (h3 : store.labelsFile.isSome) (h4 : store.playerFile.isSome) :
    (load_models store).isOk = true := by
  obtain ⟨sc, hsc⟩ := Option.isSome_iff_exists.mp h1
  obtain ⟨km, hkm⟩ := Option.isSome_iff_exists.mp h2
  obtain ⟨lb, hlb⟩ := Option.isSome_iff_exists.mp h3
  obtain ⟨pd, hpd⟩ := Option.isSome_iff_exists.mp h4
  simp [load_models, hsc, hkm, hlb, hpd, Except.isOk, Except.toBool]

/-- C3 witness: the mismatched store has all four files present, and
loading it indeed succeeds. -/
theorem c3_witness :
    (storeMismatch.scalerFile.isSome ∧ storeMismatch.kmeansFile.isSome
        ∧ storeMismatch.labelsFile.isSome ∧ storeMismatch.playerFile.isSome)
      ∧ (load_models storeMismatch).isOk = true :=
  ⟨⟨rfl, rfl, rfl, rfl⟩, c3_load_no_cardinality_check storeMismatch rfl rfl rfl rfl⟩

/-- C10: a `/similar_players` request whose `top_n` lies outside
`[1, 20]` is rejected by pydantic validation with a 422 for *every*
table and scaler — no name lookup or distance computation happens —
while a request with `top_n ∈ [1, 20]` (and a non-empty name) passes
validation straight through to `find_similar_players`. -/
theorem c10_top_n_validation (st : ScalerState) (T : Table) (r : SimilarPlayerRequest) :
    (¬(1 ≤ r.top_n ∧ r.top_n ≤ 20) →
        similar_players_endpoint st T r = .error .validation)
      ∧ (1 ≤ r.player_name.length → 1 ≤ r.top_n → r.top_n ≤ 20 →
          similar_players_endpoint st T r
            = find_similar_players st T r.player_name r.top_n.toNat) := by
  constructor
  · intro h
    have hv : ¬(validSimilarRequest r = true) := by
      simp only [validSimilarRequest, Bool.and_eq_true, decide_eq_true_eq]
      tauto
    simp [similar_players_endpoint, hv]
  · intro hname h1 h2
    have hv : validSimilarRequest r = true := by
      simp only [validSimilarRequest, Bool.and_eq_true, decide_eq_true_eq]
      exact ⟨⟨hname, h1⟩, h2⟩
    simp [similar_players_endpoint, hv]

/-- C10 witness: `top_n = 21` is rejected with the validation error;
`top_n = 5` reaches `find_similar_players`. -/
theorem c10_witness :
    (¬(1 ≤ (21 : ℤ) ∧ (21 : ℤ) ≤ 20)
      ∧ similar_players_endpoint stId tblDup ⟨"Messi", 21⟩ = .error .validation)
      ∧ similar_players_endpoint stId tblDup ⟨"Messi", 5⟩
          = find_similar_players stId tblDup "Messi" 5 :=
  ⟨⟨by decide, (c10_top_n_validation stId tblDup ⟨"Messi", 21⟩).1 (by decide)⟩,
    (c10_top_n_validation stId tblDup ⟨"Messi", 5⟩).2 (by decide) (by decide) (by decide)⟩

lemma findNameColAux_eq_find? (T : Table) (q : String) (l : List String) :
    findNameColAux T q l = l.find? (colPresentMatch T q) := by
  induction l with
  | nil => rfl
  | cons c cs ih =>
    rw [findNameColAux, List.find?]
    cases h : colPresentMatch T q c <;> simp [h, ih]

/-- C6: the name lookup is exactly "first column, in the fixed
priority order `short_name, name, long_name, player_name`, that is
present in the frame and whose case-insensitive substring mask has
any hit" (`List.find?` over the priority list) — so a query matching
only a lower-priority column such as `long_name` is still found by
falling through — and when no recognized column yields a match the
similarity endpoint fails with the 404 not-found error. -/
theorem c6_name_column_priority (T : Table) (q : String) :
    findNameCol T q = nameColumns.find? (colPresentMatch T q)
      ∧ (findNameCol T q = none →
          ∀ st n, find_similar_players st T q n = Except.error ApiError.notFound) := by
  refine ⟨findNameColAux_eq_find? T q nameColumns, ?_⟩
  intro h st n
  simp [find_similar_players, h]

/-- C6 witness: on `tblLong` the query `"xavier"` matches no
`short_name` but falls through to `long_name`; the query `"qqq"`
matches nothing and yields the 404. -/
theorem c6_witness :
    findNameCol tblLong "xavier" = some "long_name"
      ∧ findNameCol tblLong "qqq" = none
      ∧ find_similar_players stId tblLong "qqq" 5 = Except.error ApiError.notFound := by
  refine ⟨?_, by decide, (c6_name_column_priority tblLong "qqq").2 (by decide) stId 5⟩
  rw [(c6_name_column_priority tblLong "xavier").1]
  decide

lemma insKey_perm (key : ℕ → ℚ) (a : ℕ) (l : List ℕ) :
    List.Perm (insKey key a l) (a :: l) := by
  induction l with
  | nil => exact List.Perm.refl _
  | cons b l ih =>
    rw [insKey]
    by_cases h : key a ≤ key b
    · rw [if_pos h]
    · rw [if_neg h]
      exact (ih.cons b).trans (List.Perm.swap a b l)

lemma sortByKey_perm (key : ℕ → ℚ) (l : List ℕ) : List.Perm (sortByKey key l) l := by
  induction l with
  | nil => exact List.Perm.refl _
  | cons a l ih =>
    rw [sortByKey]
    exact (insKey_perm key a _).trans (ih.cons a)

lemma sortByKey_length (key : ℕ → ℚ) (l : List ℕ) :
    (sortByKey key l).length = l.length :=
  (sortByKey_perm key l).length_eq

lemma insKey_pairwise (key : ℕ → ℚ) (a : ℕ) {l : List ℕ}
    (h : l.Pairwise (fun x y => key x ≤ key y)) :
    (insKey key a l).Pairwise (fun x y => key x ≤ key y) := by
  induction l with
  | nil => simp [insKey]
  | cons b l ih =>
    obtain ⟨hb, hl⟩ := List.pairwise_cons.mp h
    rw [insKey]
    by_cases hab : key a ≤ key b
    · rw [if_pos hab]
      refine List.Pairwise.cons ?_ h
      intro x hx
      rcases List.mem_cons.mp hx with hx | hx
      · exact hx ▸ hab
      · exact hab.trans (hb x hx)
    · rw [if_neg hab]
      refine List.Pairwise.cons ?_ (ih hl)
      intro x hx
      rcases List.mem_cons.mp ((insKey_perm key a l).mem_iff.mp hx) with hx | hx
      · exact hx ▸ (not_le.mp hab).le
      · exact hb x hx

lemma sortByKey_pairwise (key : ℕ → ℚ) (l : List ℕ) :
    (sortByKey key l).Pairwise (fun x y => key x ≤ key y) := by
  induction l with
  | nil => simp [sortByKey]
  | cons a l ih => exact insKey_pairwise key a ih

lemma getD_scaleSq_nonneg {st : ScalerState} (hs : ∀ s ∈ st.scaleSq, 0 ≤ s) (j : ℕ) :
    0 ≤ st.scaleSq.getD j 1 := by
  by_cases hj : j < st.scaleSq.length
  · rw [List.getD_eq_getElem _ _ hj]
    exact hs _ (List.getElem_mem hj)
  · rw [List.getD_eq_default _ _ (not_lt.mp hj)]
    norm_num

lemma transformVec_getD (st : ScalerState) (x : List ℚ) {j : ℕ} (hj : j < 6) :
    (transformVec st x).getD j 0 = transformElem st j (x.getD j 0) := by
  rw [transformVec, List.getD_eq_getElem _ _ (by simpa using hj), List.getElem_map,
    List.getElem_range]

lemma euclDist_transform (st : ScalerState) (hs : ∀ s ∈ st.scaleSq, 0 ≤ s) (x y : List ℚ) :
    euclDist (transformVec st x) (transformVec st y)
      = Real.sqrt ((scaledDistSq st x y : ℚ) : ℝ) := by
  rw [euclDist]
  congr 1
  rw [euclDistSq, scaledDistSq, Rat.cast_list_sum, List.map_map]
  refine congrArg List.sum (List.map_congr_left (fun j hj => ?_))
  have hj6 : j < 6 := List.mem_range.mp hj
  rw [transformVec_getD st x hj6, transformVec_getD st y hj6]
  have hnn : (0 : ℝ) ≤ ((st.scaleSq.getD j 1 : ℚ) : ℝ) := by
    exact_mod_cast getD_scaleSq_nonneg hs j
  simp only [Function.comp_apply, transformElem, div_sub_div_same, div_pow,
    Real.sq_sqrt hnn]
  push_cast
  ring

lemma colPresentMatch_of_findNameCol {T : Table} {q c : String}
    (hc : findNameCol T q = some c) : colPresentMatch T q c = true := by
  rw [findNameCol, findNameColAux_eq_find?] at hc
  exact List.find?_some hc

lemma matchedRowIdx_lt {T : Table} {q c : String}
    (hc : findNameCol T q = some c) : matchedRowIdx T c q < T.rows.length := by
  have h := colPresentMatch_of_findNameCol hc
  rw [colPresentMatch, Bool.and_eq_true, List.any_eq_true] at h
  exact List.findIdx_lt_length_of_exists h.2

/-- C5: for every successful similarity query against a candidate
table with `N` rows, the returned list has length exactly
`min(top_n, N−1)` (the `argsort(distances)[1 : top_n+1]` slice), and
the Euclidean distances — in scaled style-dimension space, between
each returned candidate's transformed batch features and the query
player's transformed single-record features — are non-decreasing
along the list. The scale hypothesis states that the loaded scaler's
squared scales are non-negative, true of any genuinely fitted
scaler. -/
theorem c5_length_and_sorted (st : ScalerState) (T : Table) (q : String) (n : ℕ)
    (c : String) (hc : findNameCol T q = some c)
    (hs : ∀ s ∈ st.scaleSq, 0 ≤ s) :
    ∃ l : List ℕ,
      find_similar_idxs st T q n = Except.ok l
      ∧ l.length = min n (T.rows.length - 1)
      ∧ (l.map (fun i =>
          euclDist
            (transformVec st ((create_style_dimensions_batch T).getD i []))
            (transformVec st
              (create_style_dimensions
                (T.rows.getD (matchedRowIdx T c q) default).nums)))).Pairwise (· ≤ ·)
      ∧ find_similar_players st T q n
          = Except.ok (l.map (fun i =>
              (List.lookup c (T.rows.getD i default).strs).getD "")) := by
  have hq :
      find_similar_idxs st T q n
        = Except.ok
            (((sortByKey
                (simKey st T
                  (create_style_dimensions
                    (T.rows.getD (matchedRowIdx T c q) default).nums))
                (List.range T.rows.length)).drop 1).take n) := by
    rw [find_similar_idxs, hc]
  refine ⟨_, hq, ?_, ?_, ?_⟩
  · rw [List.length_take, List.length_drop, sortByKey_length, List.length_range]
  · have hp := sortByKey_pairwise
      (simKey st T
        (create_style_dimensions (T.rows.getD (matchedRowIdx T c q) default).nums))
      (List.range T.rows.length)
    have hsub :
        (((sortByKey
            (simKey st T
              (create_style_dimensions
                (T.rows.getD (matchedRowIdx T c q) default).nums))
            (List.range T.rows.length)).drop 1).take n).Sublist
          (sortByKey
            (simKey st T
              (create_style_dimensions
                (T.rows.getD (matchedRowIdx T c q) default).nums))
            (List.range T.rows.length)) :=
      (List.take_sublist _ _).trans (List.drop_sublist _ _)
    have hp2 := List.Pairwise.sublist hsub hp
    rw [List.pairwise_map]
    refine hp2.imp ?_
    intro i j hij
    rw [euclDist_transform st hs, euclDist_transform st hs]
    exact Real.sqrt_le_sqrt (by exact_mod_cast hij)
  · rw [find_similar_players, hc, hq]
    rfl

/-- C5 witness: querying `"Bob"` on the two-row table `tblTwo` with
`top_n = 1` succeeds and returns exactly `min 1 (2−1) = 1` index. -/
theorem c5_witness :
    findNameCol tblTwo "Bob" = some "name"
      ∧ (∀ s ∈ stId.scaleSq, (0 : ℚ) ≤ s)
      ∧ ∃ l : List ℕ, find_similar_idxs stId tblTwo "Bob" 1 = Except.ok l
          ∧ l.length = min 1 (tblTwo.rows.length - 1) := by
  refine ⟨by decide, by norm_num [stId], ?_⟩
  obtain ⟨l, h1, h2, -, -⟩ :=
    c5_length_and_sorted stId tblTwo "Bob" 1 "name" (by decide) (by norm_num [stId])
  exact ⟨l, h1, h2⟩

/-- C4 amended: self-exclusion is positional — the result is the
distance-sorted candidate list with its single nearest entry
dropped, not a filter on the matched candidate's identity. Hence the
query's own matched row is guaranteed absent from the result only
when it is the *unique* minimizer of the distance key (e.g. the only
zero-distance candidate); `c4_counterexample` shows that with a
distinct equidistant candidate sorted first, the matched row itself
survives into the output. -/
theorem c4_drop_nearest_excludes_unique_min (st : ScalerState) (T : Table) (q : String)
    (n : ℕ) (c : String) (hc : findNameCol T q = some c)
    (hmin : ∀ i < T.rows.length, i ≠ matchedRowIdx T c q →
        simKey st T
            (create_style_dimensions (T.rows.getD (matchedRowIdx T c q) default).nums)
            (matchedRowIdx T c q)
          < simKey st T
              (create_style_dimensions (T.rows.getD (matchedRowIdx T c q) default).nums)
              i) :
    ∀ l, find_similar_idxs st T q n = Except.ok l → matchedRowIdx T c q ∉ l := by
  intro l hl
  have hmlt : matchedRowIdx T c q < T.rows.length := matchedRowIdx_lt hc
  have hq :
      find_similar_idxs st T q n
        = Except.ok
            (((sortByKey
                (simKey st T
                  (create_style_dimensions
                    (T.rows.getD (matchedRowIdx T c q) default).nums))
                (List.range T.rows.length)).drop 1).take n) := by
    rw [find_similar_idxs, hc]
  rw [hq] at hl
  obtain rfl := (Except.ok.inj hl).symm
  have hperm := sortByKey_perm
    (simKey st T
      (create_style_dimensions (T.rows.getD (matchedRowIdx T c q) default).nums))
    (List.range T.rows.length)
  have hmem : matchedRowIdx T c q
      ∈ sortByKey
          (simKey st T
            (create_style_dimensions (T.rows.getD (matchedRowIdx T c q) default).nums))
          (List.range T.rows.length) :=
    hperm.mem_iff.mpr (List.mem_range.mpr hmlt)
  have hnd := hperm.nodup_iff.mpr (List.nodup_range _)
  have hpw := sortByKey_pairwise
    (simKey st T
      (create_style_dimensions (T.rows.getD (matchedRowIdx T c q) default).nums))
    (List.range T.rows.length)
  cases hsrt : sortByKey
      (simKey st T
        (create_style_dimensions (T.rows.getD (matchedRowIdx T c q) default).nums))
      (List.range T.rows.length) with
  | nil =>
    rw [hsrt] at hmem
    exact absurd hmem (List.not_mem_nil _)
  | cons h t =>
    rw [hsrt] at hmem hnd hpw
    have hh : h = matchedRowIdx T c q := by
      by_contra hne
      have hmt : matchedRowIdx T c q ∈ t := by
        rcases List.mem_cons.mp hmem with h1 | h1
        · exact absurd h1.symm hne
        · exact h1
      have hle := (List.pairwise_cons.mp hpw).1 _ hmt
      have hhr : h < T.rows.length := by
        have hmem2 : h ∈ List.range T.rows.length :=
          hperm.mem_iff.mp (hsrt ▸ List.mem_cons_self h t)
        exact List.mem_range.mp hmem2
      exact absurd hle (not_le.mpr (hmin h hhr hne))
    have hmt : matchedRowIdx T c q ∉ t := hh ▸ (List.nodup_cons.mp hnd).1
    intro hml
    exact hmt (List.take_subset n t (by simpa using hml))

/-- C4 counterexample: on `tblDup`, `Alice` (row 0) and `Bob`
(row 1) are exact attribute duplicates, both at distance 0 from the
query. Querying `"Bob"` matches row 1, yet the result of
`find_similar_idxs` is `[1]` — the dropped nearest entry is the
equidistant row 0 and the query's own matched candidate `Bob` is
returned, so the result *can* include the query's own matched
candidate. -/
theorem c4_counterexample :
    findNameCol tblDup "Bob" = some "name"
      ∧ matchedRowIdx tblDup "name" "Bob" = 1
      ∧ find_similar_idxs stId tblDup "Bob" 1 = Except.ok [1] := by
  have hm : matchedRowIdx tblDup "name" "Bob" = 1 := by decide
  have hall : create_style_dimensions (tblDup.rows.getD 1 default).nums
      = [50, 50, 50, 50, 50, 50] := by
    simp [tblDup, create_style_dimensions, styleDimsSingle, listMean, List.lookup]
      <;> norm_num
  have hb0 : (create_style_dimensions_batch tblDup).getD 0 [] = [50, 50, 50, 50, 50, 50] := by
    simp [create_style_dimensions_batch, tblDup, batchDimVal, styleDimsBatch, listMean,
      List.lookup, List.filter] <;> norm_num
  have hb1 : (create_style_dimensions_batch tblDup).getD 1 [] = [50, 50, 50, 50, 50, 50] := by
    simp [create_style_dimensions_batch, tblDup, batchDimVal, styleDimsBatch, listMean,
      List.lookup, List.filter] <;> norm_num
  have hk0 : simKey stId tblDup [50, 50, 50, 50, 50, 50] 0 = 0 := by
    rw [simKey, hb0]
    norm_num [scaledDistSq, stId, List.range_succ]
  have hk1 : simKey stId tblDup [50, 50, 50, 50, 50, 50] 1 = 0 := by
    rw [simKey, hb1]
    norm_num [scaledDistSq, stId, List.range_succ]
  refine ⟨by decide, hm, ?_⟩
  have hq :
      find_similar_idxs stId tblDup "Bob" 1
        = Except.ok
            (((sortByKey (simKey stId tblDup [50, 50, 50, 50, 50, 50]) [0, 1]).drop 1).take 1) := by
    rw [find_similar_idxs, (by decide : findNameCol tblDup "Bob" = some "name")]
    show Except.ok
        (((sortByKey
            (simKey stId tblDup
              (create_style_dimensions
                (tblDup.rows.getD (matchedRowIdx tblDup "name" "Bob") default).nums))
            (List.range tblDup.rows.length)).drop 1).take 1) = _
    rw [hm, hall, (by decide : List.range tblDup.rows.length = [0, 1])]
  rw [hq]
  simp only [sortByKey, insKey, hk0, hk1]
  norm_num

/-- C4 witness: on `tblTwo` the matched row `Bob` (row 1) is the
unique distance minimizer, so it is excluded from the result —
`find_similar_idxs` returns `[0]` and row 1 is not in it. -/
theorem c4_witness :
    find_similar_idxs stId tblTwo "Bob" 1 = Except.ok [0]
      ∧ matchedRowIdx tblTwo "name" "Bob" ∉ [0] := by
  have hm : matchedRowIdx tblTwo "name" "Bob" = 1 := by decide
  have hall : create_style_dimensions (tblTwo.rows.getD 1 default).nums
      = [75, 50, 50, 50, 50, 50] := by
    simp [tblTwo, create_style_dimensions, styleDimsSingle, listMean, List.lookup]
      <;> norm_num
  have hb0 : (create_style_dimensions_batch tblTwo).getD 0 [] = [0, 50, 50, 50, 50, 50] := by
    simp [create_style_dimensions_batch, tblTwo, batchDimVal, styleDimsBatch, listMean,
      List.lookup, List.filter] <;> norm_num
  have hb1 : (create_style_dimensions_batch tblTwo).getD 1 [] = [100, 50, 50, 50, 50, 50] := by
    simp [create_style_dimensions_batch, tblTwo, batchDimVal, styleDimsBatch, listMean,
      List.lookup, List.filter] <;> norm_num
  have hk0 : simKey stId tblTwo [75, 50, 50, 50, 50, 50] 0 = 5625 := by
    rw [simKey, hb0]
    norm_num [scaledDistSq, stId, List.range_succ]
  have hk1 : simKey stId tblTwo [75, 50, 50, 50, 50, 50] 1 = 625 := by
    rw [simKey, hb1]
    norm_num [scaledDistSq, stId, List.range_succ]
  have hfirst : find_similar_idxs stId tblTwo "Bob" 1 = Except.ok [0] := by
    have hq :
        find_similar_idxs stId tblTwo "Bob" 1
          = Except.ok
              (((sortByKey (simKey stId tblTwo [75, 50, 50, 50, 50, 50]) [0, 1]).drop 1).take 1) := by
      rw [find_similar_idxs, (by decide : findNameCol tblTwo "Bob" = some "name")]
      show Except.ok
          (((sortByKey
              (simKey stId tblTwo
                (create_style_dimensions
                  (tblTwo.rows.getD (matchedRowIdx tblTwo "name" "Bob") default).nums))
              (List.range tblTwo.rows.length)).drop 1).take 1) = _
      rw [hm, hall, (by decide : List.range tblTwo.rows.length = [0, 1])]
    rw [hq]
    simp only [sortByKey, insKey, hk0, hk1]
    norm_num
  refine ⟨hfirst, ?_⟩
  refine c4_drop_nearest_excludes_unique_min stId tblTwo "Bob" 1 "name" (by decide)
    ?_ [0] hfirst
  intro i hi hne
  have hi2 : i < 2 := by simpa [tblTwo] using hi
  rw [hm] at hne
  rw [hm, hall]
  interval_cases i
  · rw [hk0, hk1]
    norm_num
  · exact absurd rfl hne

lemma sum_map_div_const {α : Type} (l : List α) (g : α → ℝ) (c : ℝ) :
    (l.map (fun a => g a / c)).sum = (l.map g).sum / c := by
  induction l with
  | nil => simp
  | cons a l ih => simp [ih, add_div]

lemma sum_map_sub_const {α : Type} (l : List α) (g : α → ℝ) (c : ℝ) :
    (l.map (fun a => g a - c)).sum = (l.map g).sum - l.length * c := by
  induction l with
  | nil => simp
  | cons a l ih =>
    simp only [List.map_cons, List.sum_cons, List.length_cons, ih]
    push_cast
    ring

lemma sum_map_ratCast {α : Type} (l : List α) (f : α → ℚ) :
    (l.map (fun a => ((f a : ℚ) : ℝ))).sum = (((l.map f).sum : ℚ) : ℝ) := by
  induction l with
  | nil => simp
  | cons a l ih =>
    simp only [List.map_cons, List.sum_cons, ih]
    push_cast
    ring

lemma colVar_nonneg (M : List (List ℚ)) (j : ℕ) : 0 ≤ colVar M j := by
  refine div_nonneg (List.sum_nonneg ?_) (by positivity)
  intro x hx
  obtain ⟨r, -, rfl⟩ := List.mem_map.mp hx
  positivity

lemma fit_means_getD (M : List (List ℚ)) {j : ℕ} (hj : j < numCols M) :
    (fitScaler M).means.getD j 0 = colMean M j := by
  simp only [fitScaler]
  rw [List.getD_eq_getElem _ _ (by simpa using hj), List.getElem_map, List.getElem_range]

lemma fit_scaleSq_getD (M : List (List ℚ)) {j : ℕ} (hj : j < numCols M) :
    (fitScaler M).scaleSq.getD j 1 = if colVar M j = 0 then 1 else colVar M j := by
  simp only [fitScaler]
  rw [List.getD_eq_getElem _ _ (by simpa using hj), List.getElem_map, List.getElem_range]

/-- C7: `transform(fit(M), M)` never divides by zero. A zero-variance
column gets scale 1, so its transformed entries are exactly the
centered values `x − mean`; every non-degenerate column is
standardized to mean 0 and (population) variance 1, hence standard
deviation 1. -/
theorem c7_scaler_zero_variance (M : List (List ℚ)) (j : ℕ)
    (hn : 0 < M.length) (hj : j < numCols M) :
    (colVar M j = 0 →
        ∀ x : ℚ, transformElem (fitScaler M) j x = (x : ℝ) - ((colMean M j : ℚ) : ℝ))
      ∧ (colVar M j ≠ 0 → tColMean M j = 0 ∧ tColVar M j = 1) := by
  have hTE : ∀ x : ℚ, transformElem (fitScaler M) j x
      = ((x : ℝ) - ((colMean M j : ℚ) : ℝ))
          / Real.sqrt (((if colVar M j = 0 then 1 else colVar M j : ℚ)) : ℝ) := by
    intro x
    rw [transformElem, fit_means_getD M hj, fit_scaleSq_getD M hj]
  constructor
  · intro h0 x
    rw [hTE, if_pos h0]
    norm_num
  · intro hne
    have hv0 : 0 < colVar M j := lt_of_le_of_ne (colVar_nonneg M j) (Ne.symm hne)
    have hvR : (0 : ℝ) < ((colVar M j : ℚ) : ℝ) := by exact_mod_cast hv0
    have hnR : (0 : ℝ) < (M.length : ℝ) := by exact_mod_cast hn
    have hTE2 : ∀ x : ℚ, transformElem (fitScaler M) j x
        = ((x : ℝ) - ((colMean M j : ℚ) : ℝ)) / Real.sqrt ((colVar M j : ℚ) : ℝ) := by
      intro x
      rw [hTE, if_neg hne]
    have hsumq : ((M.map (fun r => r.getD j 0)).sum : ℚ) = M.length * colMean M j := by
      rw [colMean]
      field_simp
    have hnum :
        (M.map (fun r => ((r.getD j 0 : ℚ) : ℝ) - ((colMean M j : ℚ) : ℝ))).sum = 0 := by
      rw [sum_map_sub_const, sum_map_ratCast, hsumq]
      push_cast
      ring
    have htm : tColMean M j = 0 := by
      rw [tColMean]
      simp only [hTE2]
      rw [sum_map_div_const, hnum]
      simp
    refine ⟨htm, ?_⟩
    rw [tColVar, htm]
    simp only [sub_zero, hTE2, div_pow,
      Real.sq_sqrt (le_of_lt hvR)]
    rw [sum_map_div_const]
    have hsq : ((M.map (fun r => (r.getD j 0 - colMean M j) ^ 2)).sum : ℚ)
        = M.length * colVar M j := by
      rw [colVar]
      field_simp
    have hcast :
        (M.map (fun r => (((r.getD j 0 : ℚ) : ℝ) - ((colMean M j : ℚ) : ℝ)) ^ 2)).sum
          = (((M.map (fun r => (r.getD j 0 - colMean M j) ^ 2)).sum : ℚ) : ℝ) := by
      rw [← sum_map_ratCast]
      refine congrArg List.sum (List.map_congr_left fun r _ => by push_cast; ring)
    rw [hcast, hsq]
    push_cast
    field_simp

/-- C7 witness: in the matrix `[[1,2],[1,4]]` column 0 has zero
variance, and the fitted transform maps `x = 5` in that column to
the centered value `5 − 1`. -/
theorem c7_witness :
    (0 < matC7.length ∧ 0 < numCols matC7 ∧ colVar matC7 0 = 0)
      ∧ transformElem (fitScaler matC7) 0 5 = (5 : ℝ) - ((colMean matC7 0 : ℚ) : ℝ) :=
  ⟨⟨by norm_num [matC7], by norm_num [numCols, matC7],
      by norm_num [colVar, colMean, matC7]⟩,
    (c7_scaler_zero_variance matC7 0 (by norm_num [matC7])
        (by norm_num [numCols, matC7])).1
      (by norm_num [colVar, colMean, matC7]) 5⟩

lemma sqDist6_nonneg (x y : List ℚ) : 0 ≤ sqDist6 x y := by
  refine List.sum_nonneg ?_
  intro a ha
  obtain ⟨j, -, rfl⟩ := List.mem_map.mp ha
  positivity

lemma argminLoop_spec (key : ℕ → ℚ) :
    ∀ (l : List ℕ) (b : ℕ), (∀ i ∈ l, b < i) → l.Pairwise (· < ·) →
      (argminLoop key b l = b ∨ argminLoop key b l ∈ l)
        ∧ key (argminLoop key b l) ≤ key b
        ∧ (∀ i ∈ l, key (argminLoop key b l) ≤ key i)
        ∧ (argminLoop key b l ≠ b → key (argminLoop key b l) < key b)
        ∧ (∀ i ∈ l, i < argminLoop key b l → key (argminLoop key b l) < key i) := by
  intro l
  induction l with
  | nil =>
    intro b _ _
    exact ⟨Or.inl rfl, le_refl _, by simp, fun h => absurd rfl h, by simp⟩
  | cons i is ih =>
    intro b hb hp
    obtain ⟨hi_lt, hp'⟩ := List.pairwise_cons.mp hp
    rw [argminLoop]
    by_cases hki : key i < key b
    · rw [if_pos hki]
      obtain ⟨hmem, hle, hall, hlt, hord⟩ := ih i hi_lt hp'
      refine ⟨?_, le_of_lt (lt_of_le_of_lt hle hki), ?_, fun _ => lt_of_le_of_lt hle hki, ?_⟩
      · rcases hmem with h | h
        · exact Or.inr (by rw [h]; exact List.mem_cons_self i is)
        · exact Or.inr (List.mem_cons_of_mem i h)
      · intro j hj
        rcases List.mem_cons.mp hj with h | h
        · rw [h]
          exact hle
        · exact hall j h
      · intro j hj hjr
        rcases List.mem_cons.mp hj with h | h
        · have hne : argminLoop key i is ≠ i := by omega
          calc key (argminLoop key i is) < key i := hlt hne
            _ = key j := by rw [h]
        · exact hord j h hjr
    · rw [if_neg hki]
      have hbi : key b ≤ key i := not_lt.mp hki
      obtain ⟨hmem, hle, hall, hlt, hord⟩ :=
        ih b (fun j hj => lt_trans (hb i (List.mem_cons_self i is)) (hi_lt j hj)) hp'
      refine ⟨?_, hle, ?_, hlt, ?_⟩
      · rcases hmem with h | h
        · exact Or.inl h
        · exact Or.inr (List.mem_cons_of_mem i h)
      · intro j hj
        rcases List.mem_cons.mp hj with h | h
        · exact h ▸ (hle.trans hbi)
        · exact hall j h
      · intro j hj hjr
        rcases List.mem_cons.mp hj with h | h
        · have hrb : argminLoop key b is ≠ b := by
            intro he
            rw [he] at hjr
            have h1 : b < i := hb i (List.mem_cons_self i is)
            omega
          calc key (argminLoop key b is) < key b := hlt hrb
            _ ≤ key i := hbi
            _ = key j := by rw [h]
        · exact hord j h hjr

lemma mem_drop_one_range {K j : ℕ} (h1 : 1 ≤ j) (h2 : j < K) :
    j ∈ (List.range K).drop 1 := by
  obtain ⟨k, rfl⟩ : ∃ k, K = k + 1 := ⟨K - 1, by omega⟩
  rw [List.range_succ_eq_map]
  simp only [List.drop_succ_cons, List.drop_zero]
  exact List.mem_map.mpr ⟨j - 1, List.mem_range.mpr (by omega), by omega⟩

/-- C8: `kmeans_predict` returns an in-range centroid index whose
Euclidean distance to the input is minimal among all centroids; on
exact distance ties the lowest index wins (every strictly smaller
index is strictly farther); and prediction is deterministic — a pure
function of the model and the input vector. -/
theorem c8_predict_nearest_lowest (m : KMeansModel) (x : List ℚ)
    (hK : 0 < m.centroids.length) :
    kmeans_predict m x < m.centroids.length
      ∧ (∀ j < m.centroids.length,
          Real.sqrt ((sqDist6 (m.centroids.getD (kmeans_predict m x) []) x : ℚ) : ℝ)
            ≤ Real.sqrt ((sqDist6 (m.centroids.getD j []) x : ℚ) : ℝ))
      ∧ (∀ j < kmeans_predict m x,
          Real.sqrt ((sqDist6 (m.centroids.getD (kmeans_predict m x) []) x : ℚ) : ℝ)
            < Real.sqrt ((sqDist6 (m.centroids.getD j []) x : ℚ) : ℝ))
      ∧ (∀ y : List ℚ, y = x → kmeans_predict m y = kmeans_predict m x) := by
  have hb : ∀ i ∈ (List.range m.centroids.length).drop 1, 0 < i := by
    obtain ⟨k, hk⟩ : ∃ k, m.centroids.length = k + 1 := ⟨m.centroids.length - 1, by omega⟩
    rw [hk, List.range_succ_eq_map]
    simp only [List.drop_succ_cons, List.drop_zero]
    intro i hi
    obtain ⟨t, -, rfl⟩ := List.mem_map.mp hi
    omega
  have hp : ((List.range m.centroids.length).drop 1).Pairwise (· < ·) :=
    List.Pairwise.sublist (List.drop_sublist _ _)
      (List.pairwise_lt_range m.centroids.length)
  obtain ⟨hmem, hle, hall, hlt, hord⟩ :=
    argminLoop_spec (fun i => sqDist6 (m.centroids.getD i []) x)
      ((List.range m.centroids.length).drop 1) 0 hb hp
  rw [kmeans_predict]
  have hrange : argminLoop (fun i => sqDist6 (m.centroids.getD i []) x) 0
      ((List.range m.centroids.length).drop 1) < m.centroids.length := by
    rcases hmem with h | h
    · rw [h]; exact hK
    · exact List.mem_range.mp (List.Sublist.subset (List.drop_sublist _ _) h)
  refine ⟨hrange, ?_, ?_, fun y hy => by rw [hy, kmeans_predict]⟩
  · intro j hj
    refine Real.sqrt_le_sqrt ?_
    rcases Nat.eq_zero_or_pos j with h0 | h0
    · subst h0
      exact_mod_cast hle
    · exact_mod_cast hall j (mem_drop_one_range h0 hj)
  · intro j hj
    refine Real.sqrt_lt_sqrt (by exact_mod_cast sqDist6_nonneg _ _) ?_
    rcases Nat.eq_zero_or_pos j with h0 | h0
    · subst h0
      exact_mod_cast hlt (by omega)
    · exact_mod_cast hord j (mem_drop_one_range h0 (lt_trans hj hrange)) hj

/-- C8 witness: on the two-centroid model the prediction exists and
is an in-range index. -/
theorem c8_witness :
    0 < mdlTwo.centroids.length
      ∧ kmeans_predict mdlTwo [0, 0, 0, 0, 0, 0] < mdlTwo.centroids.length :=
  ⟨by decide, (c8_predict_nearest_lowest mdlTwo [0, 0, 0, 0, 0, 0] (by decide)).1⟩
